import Mathlib

/-!
Verification of the `cricket_scoring` Rust library.

A shallow embedding of the scoring engine: `Player`, `Team`, `BallOutcome`
(`src/scoring/ball.rs`), `CurrentScore` (`src/scoring/score.rs`), `Innings`
(`src/scoring/innings.rs`) and `Match` (`src/scoring/match.rs`).  Rust `i32`
fields are modelled as `Int` (runs totals stay far from the `i32` bounds in
every reachable state, so wrap-around is not modelled for additions; the
explicit `as u8` / `as u32` casts in `calculate_win_margin` are modelled
exactly).  Fallible operations (panicking lookups) return `Option`.
-/

namespace Cricket

/-- `startsWithChars pat s`: `pat` is a leading segment of `s`
(character-list version of Rust's slice matching used by `str::contains`). -/
def startsWithChars : List Char → List Char → Bool
  | [], _ => true
  | _ :: _, [] => false
  | a :: as, b :: bs => a == b && startsWithChars as bs

/-- `containsChars pat s`: `pat` occurs contiguously somewhere in `s`. -/
def containsChars (pat : List Char) : List Char → Bool
  | [] => startsWithChars pat []
  | b :: bs => startsWithChars pat (b :: bs) || containsChars pat bs

/-- Rust's `str::contains(pat)` on `s` (substring containment). -/
def strContains (s pat : String) : Bool :=
  containsChars pat.toList s.toList

/-- `Player` from `src/scoring/player.rs`: name plus mutable batting and
bowling statistics. -/
structure Player where
  name : String
  runs : Int
  balls_faced : Int
  fours : Int
  sixes : Int
  out : Bool
  dismissal : Option String
  balls_bowled : Int
  runs_conceded : Int
  wickets_taken : Int
  maidens : Int
  wides : Int
  no_balls : Int
deriving Repr, DecidableEq

/-- `Player::new`: a named player with all statistics zeroed. -/
def Player.new (name : String) : Player :=
  { name := name, runs := 0, balls_faced := 0, fours := 0, sixes := 0,
    out := false, dismissal := none, balls_bowled := 0, runs_conceded := 0,
    wickets_taken := 0, maidens := 0, wides := 0, no_balls := 0 }

/-- `Team` from `src/scoring/player.rs`. -/
structure Team where
  players : List Player
  name : String
deriving Repr, DecidableEq

/-- `Wicket` from `src/scoring/ball.rs`. -/
structure Wicket where
  player_out : String
  kind : String
deriving Repr, DecidableEq

/-- `BallOutcome` from `src/scoring/ball.rs`. -/
structure BallOutcome where
  runs : Int
  wicket : Option (List Wicket)
  no_ball : Option Int
  wide : Option Int
  byes : Option Int
  leg_byes : Option Int
  free_hit : Bool
  four : Bool
  six : Bool
  on_strike : Player
  off_strike : Player
  bowler : Player
  penalty : Option Int
deriving Repr, DecidableEq

/-- `BallOutcome::default()` restricted to the non-player fields, used by
`BallOutcome::new` (players are overwritten immediately). -/
def BallOutcome.mk0 (on_strike off_strike bowler : Player) : BallOutcome :=
  { runs := 0, wicket := none, no_ball := none, wide := none, byes := none,
    leg_byes := none, free_hit := false, four := false, six := false,
    on_strike := on_strike, off_strike := off_strike, bowler := bowler,
    penalty := none }

/-- `BallEvents` from `src/scoring/ball.rs`. -/
inductive BallEvents where
  | Bye : Int → BallEvents
  | LegBye : Int → BallEvents
  | NoBall : Int → BallEvents
  | Wicket : List Wicket → BallEvents
  | Wide : Int → BallEvents
  | Penalty : Int → BallEvents
  | Four
  | Six
deriving Repr, DecidableEq

/-- `BallOutcome::new`: fold the tagged events into the optional fields
(last write wins). -/
def BallOutcome.new (runs : Int) (ball_events : List BallEvents)
    (on_strike off_strike bowler : Player) : BallOutcome :=
  ball_events.foldl
    (fun outcome event =>
      match event with
      | .Bye x => { outcome with byes := some x }
      | .LegBye x => { outcome with leg_byes := some x }
      | .NoBall x => { outcome with no_ball := some x }
      | .Wicket x => { outcome with wicket := some x }
      | .Wide x => { outcome with wide := some x }
      | .Four => { outcome with four := true }
      | .Six => { outcome with six := true }
      | .Penalty x => { outcome with penalty := some x } )
    { BallOutcome.mk0 on_strike off_strike bowler with runs := runs }

/-- `BallOutcomeValidation` from `src/error.rs`. -/
inductive BallOutcomeValidation where
  | DoubleOutcome : String → String → BallOutcomeValidation
deriving Repr, DecidableEq

/-- `BallOutcome::validate` from `src/scoring/ball.rs`. -/
def BallOutcome.validate (b : BallOutcome) : Except BallOutcomeValidation Unit :=
  if b.four && b.six then
    .error (.DoubleOutcome "Four" "Six")
  else if b.byes.isSome && b.leg_byes.isSome then
    .error (.DoubleOutcome "Bye" "Leg Bye")
  else
    .ok ()

/-- `CurrentScore` from `src/scoring/score.rs`. -/
structure CurrentScore where
  wickets_left : Int
  wickets_lost : Int
  runs : Int
  leg_byes : Int
  byes : Int
  wides : Int
  no_balls : Int
  over : Int
  ball : Int
deriving Repr, DecidableEq

/-- `CurrentScore::new`: everything zero except ten wickets in hand. -/
def CurrentScore.new : CurrentScore :=
  { wickets_left := 10, wickets_lost := 0, runs := 0, leg_byes := 0,
    byes := 0, wides := 0, no_balls := 0, over := 0, ball := 0 }

/-- The dismissal-kind test in `CurrentScore::score_ball`:
`wicket.kind == "retired out" || !wicket.kind.contains("retired")`. -/
def countsAsDismissal (kind : String) : Bool :=
  kind == "retired out" || !(strContains kind "retired")

/-- One iteration of the wicket loop in `CurrentScore::score_ball`. -/
def CurrentScore.stepOneWicket (s : CurrentScore) (w : Wicket) : CurrentScore :=
  if countsAsDismissal w.kind then
    { s with wickets_lost := s.wickets_lost + 1, wickets_left := s.wickets_left - 1 }
  else s

/-- `CurrentScore::score_ball` from `src/scoring/score.rs`, written as the
same sequence of updates as the source. -/
def CurrentScore.score_ball (s : CurrentScore) (b : BallOutcome) : CurrentScore :=
  let s := if b.wide.isNone && b.no_ball.isNone then { s with ball := s.ball + 1 } else s
  let s := { s with runs := s.runs + b.runs }
  let s := match b.wicket with
    | some ws => ws.foldl CurrentScore.stepOneWicket s
    | none => s
  let s := match b.wide with
    | some w => { s with wides := s.wides + w + b.runs, runs := s.runs + w }
    | none => s
  let s := match b.no_ball with
    | some nb => { s with no_balls := s.no_balls + nb, runs := s.runs + nb }
    | none => s
  let s := match b.byes with
    | some x => { s with byes := s.byes + x, runs := s.runs + x }
    | none => s
  let s := match b.leg_byes with
    | some x => { s with leg_byes := s.leg_byes + x, runs := s.runs + x }
    | none => s
  match b.penalty with
    | some p => { s with runs := s.runs + p }
    | none => s

/-- `CurrentScore::over`. -/
def CurrentScore.overEnd (s : CurrentScore) : CurrentScore :=
  { s with over := s.over + 1, ball := 0 }

/-- `Innings` from `src/scoring/innings.rs`. -/
structure Innings where
  score : CurrentScore
  batting_team : Team
  bowling_team : Team
  on_strike : Nat
  off_strike : Nat
  finished : Bool
deriving Repr, DecidableEq

/-- `Innings::new`. -/
def Innings.new (batting_team bowling_team : Team) : Innings :=
  { score := CurrentScore.new, batting_team := batting_team,
    bowling_team := bowling_team, on_strike := 0, off_strike := 1,
    finished := false }

/-- `Innings::over`: delegate to the score and swap the strike indices. -/
def Innings.overEnd (inn : Innings) : Innings :=
  { inn with score := inn.score.overEnd,
             on_strike := inn.off_strike, off_strike := inn.on_strike }

/-- In-place update of one vector slot, mirroring
`players.get_mut(i)` followed by a field update (no-op when the index is out
of range; the source only reaches it with valid indices). -/
def listModify (f : Player → Player) : Nat → List Player → List Player
  | _, [] => []
  | 0, p :: ps => f p :: ps
  | n + 1, p :: ps => p :: listModify f n ps

/-- The striker statistics update in `Innings::score_ball`: a ball is faced
unless wide or no-ball; bat runs and boundary flags are credited additionally
unless byes or leg-byes. -/
def updateStriker (b : BallOutcome) (p : Player) : Player :=
  if b.wide.isNone && b.no_ball.isNone then
    let p := { p with balls_faced := p.balls_faced + 1 }
    if b.byes.isNone && b.leg_byes.isNone then
      let p := { p with runs := p.runs + b.runs }
      let p := if b.four then { p with fours := p.fours + 1 } else p
      if b.six then { p with sixes := p.sixes + 1 } else p
    else p
  else p

/-- The bowler statistics update in `Innings::score_ball`. -/
def updateBowler (b : BallOutcome) (p : Player) : Player :=
  let p := if b.wide.isNone && b.no_ball.isNone then
      { p with balls_bowled := p.balls_bowled + 1 }
    else p
  let p := { p with runs_conceded := p.runs_conceded + b.runs }
  let p := match b.wicket with
    | some ws => { p with wickets_taken := p.wickets_taken + ws.length }
    | none => p
  let p := if b.wide.isSome then { p with wides := p.wides + 1 } else p
  if b.no_ball.isSome then { p with no_balls := p.no_balls + 1 } else p

/-- Rust's `%` on `i32` truncates toward zero; the odd-runs test in
`Innings::score_ball` is `ball_outcome.runs % 2 == 1`. -/
def rustOddRuns (n : Int) : Bool :=
  n.tmod 2 == 1

/-- Steps 1–5 of `Innings::score_ball` (everything before the wicket loop):
score the ball, resolve striker/non-striker from the event (`none` models the
source's panic when a name is missing from the batting roster), update the
striker's and bowler's statistics, re-synchronise the strike indices and
apply odd-run strike rotation. -/
def Innings.applyBall (inn : Innings) (b : BallOutcome) : Option Innings :=
  let score := inn.score.score_ball b
  match inn.batting_team.players.findIdx? (fun p => p.name == b.on_strike.name),
        inn.batting_team.players.findIdx? (fun p => p.name == b.off_strike.name) with
  | some striker_index, some non_striker_index =>
    let battingPlayers := listModify (updateStriker b) striker_index inn.batting_team.players
    let bowlingPlayers :=
      match inn.bowling_team.players.findIdx? (fun p => p.name == b.bowler.name) with
      | some bowler_index => listModify (updateBowler b) bowler_index inn.bowling_team.players
      | none => inn.bowling_team.players
    let onS := if rustOddRuns b.runs then non_striker_index else striker_index
    let offS := if rustOddRuns b.runs then striker_index else non_striker_index
    some { inn with
      score := score,
      batting_team := { inn.batting_team with players := battingPlayers },
      bowling_team := { inn.bowling_team with players := bowlingPlayers },
      on_strike := onS,
      off_strike := offS }
  | _, _ => none

/-- One iteration of the wicket loop in `Innings::score_ball`: locate the
dismissed batter (the event's `player_out` string contains the roster name),
mark them out, and bring the next batter in at the vacated crease slot. -/
def Innings.processWicket (inn : Innings) (w : Wicket) : Option Innings :=
  match inn.batting_team.players.findIdx? (fun p => strContains w.player_out p.name) with
  | none => none
  | some out_player_index =>
    let players := listModify
      (fun p => { p with out := true, dismissal := some w.kind })
      out_player_index inn.batting_team.players
    let next := max inn.on_strike inn.off_strike + 1
    if out_player_index == inn.on_strike then
      some { inn with batting_team := { inn.batting_team with players := players },
                      on_strike := next }
    else
      some { inn with batting_team := { inn.batting_team with players := players },
                      off_strike := next }

/-- Step 6 of `Innings::score_ball`: process the dismissals in order. -/
def Innings.processWickets (inn : Innings) (b : BallOutcome) : Option Innings :=
  match b.wicket with
  | none => some inn
  | some ws => ws.foldlM Innings.processWicket inn

/-- `Innings::score_ball` from `src/scoring/innings.rs`: the pre-wicket
updates followed by the wicket loop. -/
def Innings.score_ball (inn : Innings) (b : BallOutcome) : Option Innings :=
  (inn.applyBall b).bind (fun i => i.processWickets b)

/-- `MatchType` from `src/scoring/match.rs`. -/
inductive MatchType where
  | Test
  | OD
  | T20
  | Other : String → MatchType
deriving Repr, DecidableEq

/-- `MatchStatus` from `src/scoring/match.rs`. -/
inductive MatchStatus where
  | NotStarted
  | InProgress
  | Completed
  | Abandoned
  | NoResult
deriving Repr, DecidableEq

/-- `WinMargin` from `src/scoring/match.rs`.  The payloads are `u32` / `u8`
in the source; values are kept as `Int` and the narrowing casts are applied
at the construction sites, as in `calculate_win_margin`. -/
inductive WinMargin where
  | Runs : Int → WinMargin
  | Wickets : Int → WinMargin
  | Award
deriving Repr, DecidableEq

/-- `MatchResult` from `src/scoring/match.rs`. -/
inductive MatchResult where
  | Team1Won : WinMargin → Option String → MatchResult
  | Team2Won : WinMargin → Option String → MatchResult
  | Tie : Option String → MatchResult
  | Draw
  | NoResult
deriving Repr, DecidableEq

/-- `Match` from `src/scoring/match.rs`. -/
structure Match where
  id : String
  title : String
  venue : Option String
  date : Option String
  match_type : MatchType
  team1 : Team
  team2 : Team
  innings : List Innings
  status : MatchStatus
  result : Option MatchResult
deriving Repr, DecidableEq

/-- `Match::new`. -/
def Match.new (id title : String) (match_type : MatchType) (team1 team2 : Team) : Match :=
  { id := id, title := title, venue := none, date := none,
    match_type := match_type, team1 := team1, team2 := team2,
    innings := [], status := .NotStarted, result := none }

/-- `Match::add_innings`. -/
def Match.add_innings (m : Match) (inn : Innings) : Match :=
  { m with innings := m.innings ++ [inn] }

/-- `Match::set_result`: store the result and mark the match completed. -/
def Match.set_result (m : Match) (result : MatchResult) : Match :=
  { m with result := some result, status := .Completed }

/-- `Match::set_result_with_method`: replace the method field of the given
result (Draw and NoResult carry no method) and delegate to `set_result`. -/
def Match.set_result_with_method (m : Match) (result : MatchResult)
    (method : Option String) : Match :=
  let result_with_method := match result with
    | .Team1Won margin _ => MatchResult.Team1Won margin method
    | .Team2Won margin _ => MatchResult.Team2Won margin method
    | .Tie _ => MatchResult.Tie method
    | other => other
  m.set_result result_with_method

/-- The batting-team name of each recorded innings, in order (the source's
`teams` vector in `calculate_result`). -/
def Match.battingNames (m : Match) : List String :=
  m.innings.map (fun i => i.batting_team.name)

/-- The per-innings run totals recorded for one team, in order (the entry of
the source's `scores` map; empty when the team never batted, matching
`unwrap_or(&vec![])`). -/
def Match.teamInningsScores (m : Match) (name : String) : List Int :=
  (m.innings.filter (fun i => i.batting_team.name == name)).map
    (fun i => i.score.runs)

/-- A team's summed run total across its innings. -/
def Match.teamTotal (m : Match) (name : String) : Int :=
  (m.teamInningsScores name).sum

/-- How many recorded innings a team batted in. -/
def Match.teamInningsCount (m : Match) (name : String) : Nat :=
  (m.innings.filter (fun i => i.batting_team.name == name)).length

/-- Rust `as u32` applied to a non-negative in-range `i32` difference:
reduce into `[0, 2^32)`. -/
def i32AsU32 (n : Int) : Int := n % 4294967296

/-- Rust `as u8` applied to an `i32`: keep the low 8 bits. -/
def i32AsU8 (n : Int) : Int := n % 256

/-- `Match::is_innings_victory`: at least three innings and (exactly two
batting sides with) unequal innings counts.  The source collects the counts
from a `HashMap`; the order of its `values()` is irrelevant because only
`counts.len() == 2 && counts[0] != counts[1]` is checked, so the counts are
taken here in first-appearance order. -/
def Match.is_innings_victory (m : Match) : Bool :=
  if m.innings.length < 3 then false
  else
    let names := m.battingNames.eraseDups
    let counts := names.map (fun n => m.teamInningsCount n)
    counts.length == 2 && counts.getD 0 0 != counts.getD 1 0

/-- `Match::calculate_win_margin`: runs for an innings victory, wickets when
the winner batted last, runs otherwise. -/
def Match.calculate_win_margin (m : Match)
    (winning_team losing_team batting_team : String)
    (last_innings_wickets_left : Int) : WinMargin :=
  if m.is_innings_victory then
    .Runs (i32AsU32 (m.teamTotal winning_team - m.teamTotal losing_team))
  else if winning_team == batting_team then
    .Wickets (i32AsU8 last_innings_wickets_left)
  else
    .Runs (i32AsU32 (m.teamTotal winning_team - m.teamTotal losing_team))

/-- `Match::calculate_result` from `src/scoring/match.rs`.  `batting_team`,
`bowling_team` and `last_innings_wickets_left` are the values left by the
source's loop over the innings, i.e. those of the last recorded innings;
`teams[0]` / `teams[1]` are the batting sides of the first two innings (the
winner branch is reached only when at least two distinct sides batted, so at
least two innings exist and the `getD` defaults are never used there). -/
def Match.calculate_result (m : Match) : Match :=
  match m.innings.getLast? with
  | none => m
  | some last =>
    let batting_team := last.batting_team.name
    let bowling_team := last.bowling_team.name
    let lastWL := last.score.wickets_left
    let not_finished := m.battingNames.eraseDups.length < 2
    let is_draw := m.teamTotal batting_team < m.teamTotal bowling_team ∧ lastWL > 0
    if not_finished ∨ is_draw then
      { m with result := some .Draw, status := .Completed }
    else
      let team_a := m.battingNames.getD 0 ""
      let team_b := m.battingNames.getD 1 ""
      let team_a_total := m.teamTotal team_a
      let team_b_total := m.teamTotal team_b
      let res :=
        if team_b_total < team_a_total then
          let margin := m.calculate_win_margin team_a team_b batting_team lastWL
          if team_a == m.team1.name then MatchResult.Team1Won margin none
          else MatchResult.Team2Won margin none
        else if team_a_total = team_b_total then MatchResult.Tie none
        else
          let margin := m.calculate_win_margin team_b team_a batting_team lastWL
          if team_b == m.team1.name then MatchResult.Team1Won margin none
          else MatchResult.Team2Won margin none
      { m with result := some res, status := .Completed }

/-! ## Concrete fixtures (used to instantiate theorems at specific inputs) -/

/-- A two-player roster named `n`, as in the source's unit tests. -/
def fixtureTeam (n : String) : Team :=
  ⟨[Player.new "Player1", Player.new "Player2"], n⟩

/-- A completed innings with the given batting/bowling sides, run total and
wickets in hand. -/
def fixtureInnings (bat bowl : Team) (runs wl : Int) : Innings :=
  { Innings.new bat bowl with
    score := { CurrentScore.new with runs := runs, wickets_left := wl } }

/-- A match between sides "A" and "B" holding the given innings list. -/
def fixtureMatch (inns : List Innings) : Match :=
  { Match.new "M1" "A vs B" .Test (fixtureTeam "A") (fixtureTeam "B") with
    innings := inns }

/-! ## Helper lemmas -/

/-- The dismissal count a delivery adds, per the policy in
`CurrentScore::score_ball`. -/
def wicketFallCount (b : BallOutcome) : Nat :=
  (b.wicket.getD []).countP (fun w => countsAsDismissal w.kind)

/-- The full run value of one delivery: bat runs plus every extras field. -/
def deliveryRunsTotal (b : BallOutcome) : Int :=
  b.runs + b.byes.getD 0 + b.leg_byes.getD 0 + b.wide.getD 0 +
    b.no_ball.getD 0 + b.penalty.getD 0

theorem stepOneWicket_runs (s : CurrentScore) (w : Wicket) :
    (s.stepOneWicket w).runs = s.runs := by
  unfold CurrentScore.stepOneWicket; split <;> rfl

theorem stepOneWicket_ball (s : CurrentScore) (w : Wicket) :
    (s.stepOneWicket w).ball = s.ball := by
  unfold CurrentScore.stepOneWicket; split <;> rfl

theorem foldWickets_runs (ws : List Wicket) (s : CurrentScore) :
    (ws.foldl CurrentScore.stepOneWicket s).runs = s.runs := by
  induction ws generalizing s with
  | nil => rfl
  | cons w ws ih => rw [List.foldl_cons, ih, stepOneWicket_runs]

theorem foldWickets_ball (ws : List Wicket) (s : CurrentScore) :
    (ws.foldl CurrentScore.stepOneWicket s).ball = s.ball := by
  induction ws generalizing s with
  | nil => rfl
  | cons w ws ih => rw [List.foldl_cons, ih, stepOneWicket_ball]

theorem foldWickets_lost (ws : List Wicket) (s : CurrentScore) :
    (ws.foldl CurrentScore.stepOneWicket s).wickets_lost =
      s.wickets_lost + (ws.countP (fun w => countsAsDismissal w.kind) : Int) := by
  induction ws generalizing s with
  | nil => simp
  | cons w ws ih =>
    rw [List.foldl_cons, ih]
    unfold CurrentScore.stepOneWicket
    rw [List.countP_cons]
    split <;> rename_i h <;> simp [h] <;> ring

theorem foldWickets_left (ws : List Wicket) (s : CurrentScore) :
    (ws.foldl CurrentScore.stepOneWicket s).wickets_left =
      s.wickets_left - (ws.countP (fun w => countsAsDismissal w.kind) : Int) := by
  induction ws generalizing s with
  | nil => simp
  | cons w ws ih =>
    rw [List.foldl_cons, ih]
    unfold CurrentScore.stepOneWicket
    rw [List.countP_cons]
    split <;> rename_i h <;> simp [h] <;> ring

theorem score_ball_runs (s : CurrentScore) (b : BallOutcome) :
    (s.score_ball b).runs = s.runs + deliveryRunsTotal b := by
  unfold CurrentScore.score_ball deliveryRunsTotal
  cases hwk : b.wicket <;> cases hw : b.wide <;> cases hnb : b.no_ball <;>
    cases hb : b.byes <;> cases hlb : b.leg_byes <;> cases hp : b.penalty <;>
    simp [hwk, hw, hnb, hb, hlb, hp, foldWickets_runs] <;> ring

theorem score_ball_ball (s : CurrentScore) (b : BallOutcome) :
    (s.score_ball b).ball =
      s.ball + (if b.wide = none ∧ b.no_ball = none then 1 else 0) := by
  unfold CurrentScore.score_ball
  cases hwk : b.wicket <;> cases hw : b.wide <;> cases hnb : b.no_ball <;>
    cases hb : b.byes <;> cases hlb : b.leg_byes <;> cases hp : b.penalty <;>
    simp [hwk, hw, hnb, hb, hlb, hp, foldWickets_ball]

theorem score_ball_wickets_lost (s : CurrentScore) (b : BallOutcome) :
    (s.score_ball b).wickets_lost = s.wickets_lost + (wicketFallCount b : Int) := by
  unfold CurrentScore.score_ball wicketFallCount
  cases hwk : b.wicket <;> cases hw : b.wide <;> cases hnb : b.no_ball <;>
    cases hb : b.byes <;> cases hlb : b.leg_byes <;> cases hp : b.penalty <;>
    simp [hwk, hw, hnb, hb, hlb, hp, foldWickets_lost]

theorem score_ball_wickets_left (s : CurrentScore) (b : BallOutcome) :
    (s.score_ball b).wickets_left = s.wickets_left - (wicketFallCount b : Int) := by
  unfold CurrentScore.score_ball wicketFallCount
  cases hwk : b.wicket <;> cases hw : b.wide <;> cases hnb : b.no_ball <;>
    cases hb : b.byes <;> cases hlb : b.leg_byes <;> cases hp : b.penalty <;>
    simp [hwk, hw, hnb, hb, hlb, hp, foldWickets_left]

/-! ## Claims -/

/-- C10: `Match::set_result` always stores the given result and marks the
match `Completed`, for every result value including `Draw` and `NoResult`. -/
theorem C10_set_result_stores_and_completes (m : Match) (r : MatchResult) :
    (m.set_result r).result = some r ∧ (m.set_result r).status = .Completed :=
  ⟨rfl, rfl⟩

/-- C9: `BallOutcome::validate` rejects four+six with
`DoubleOutcome("Four","Six")`, rejects byes+leg-byes (when the four/six
conflict is absent — that check runs first) with
`DoubleOutcome("Bye","Leg Bye")`, and accepts any outcome with neither
conflicting pair. -/
theorem C9_validate_double_outcomes (b : BallOutcome) :
    (b.four = true → b.six = true →
      b.validate = .error (.DoubleOutcome "Four" "Six")) ∧
    (¬(b.four = true ∧ b.six = true) → b.byes.isSome → b.leg_byes.isSome →
      b.validate = .error (.DoubleOutcome "Bye" "Leg Bye")) ∧
    (¬(b.four = true ∧ b.six = true) → ¬(b.byes.isSome = true ∧ b.leg_byes.isSome = true) →
      b.validate = .ok ()) := by
  unfold BallOutcome.validate
  refine ⟨fun h4 h6 => ?_, fun hns hb hlb => ?_, fun hns hne => ?_⟩
  · simp [h4, h6]
  · have : ¬(b.four && b.six) = true := by
      simp only [Bool.and_eq_true]; exact hns
    simp [this, hb, hlb]
  · have h1 : ¬(b.four && b.six) = true := by
      simp only [Bool.and_eq_true]; exact hns
    have h2 : ¬(b.byes.isSome && b.leg_byes.isSome) = true := by
      simp only [Bool.and_eq_true]; exact hne
    simp [h1, h2]

/-- Witness for C9 at concrete outcomes. -/
theorem C9_validate_double_outcomes_witness :
    (BallOutcome.new 4 [.Four, .Six] (Player.new "S") (Player.new "N")
        (Player.new "B")).validate = .error (.DoubleOutcome "Four" "Six") ∧
    (BallOutcome.new 2 [.Bye 1, .LegBye 1] (Player.new "S") (Player.new "N")
        (Player.new "B")).validate = .error (.DoubleOutcome "Bye" "Leg Bye") ∧
    (BallOutcome.new 1 [] (Player.new "S") (Player.new "N")
        (Player.new "B")).validate = .ok () := by
  refine ⟨(C9_validate_double_outcomes _).1 (by decide) (by decide),
          (C9_validate_double_outcomes _).2.1 (by decide) (by decide) (by decide),
          (C9_validate_double_outcomes _).2.2 (by decide) (by decide)⟩

theorem foldl_score_ball_runs (bs : List BallOutcome) (s : CurrentScore) :
    (bs.foldl CurrentScore.score_ball s).runs =
      s.runs + (bs.map deliveryRunsTotal).sum := by
  induction bs generalizing s with
  | nil => simp
  | cons b bs ih =>
    rw [List.foldl_cons, ih, score_ball_runs]
    simp; ring

/-- C2: starting from `CurrentScore::new`, after any sequence of validated
deliveries the running `runs` equals accumulated bat runs plus byes plus
leg-byes plus wides plus no-balls plus penalties (each term summed over the
corresponding `BallOutcome` field). -/
theorem C2_runs_invariant (bs : List BallOutcome)
    (hvalid : ∀ b ∈ bs, b.validate = .ok ()) :
    (bs.foldl CurrentScore.score_ball CurrentScore.new).runs =
      (bs.map (fun b => b.runs)).sum + (bs.map (fun b => b.byes.getD 0)).sum +
      (bs.map (fun b => b.leg_byes.getD 0)).sum + (bs.map (fun b => b.wide.getD 0)).sum +
      (bs.map (fun b => b.no_ball.getD 0)).sum + (bs.map (fun b => b.penalty.getD 0)).sum := by
  rw [foldl_score_ball_runs]
  show (0 : Int) + _ = _
  rw [zero_add]
  induction bs with
  | nil => simp
  | cons b bs ih =>
    have ih' := ih (fun x hx => hvalid x (List.mem_cons_of_mem b hx))
    simp only [List.map_cons, List.sum_cons, deliveryRunsTotal] at ih' ⊢
    rw [ih']; ring

/-- Witness for C2: a wide-plus-runs delivery followed by a bye delivery. -/
theorem C2_runs_invariant_witness :
    (([⟨2, none, none, some 1, none, none, false, false, false,
        Player.new "S", Player.new "N", Player.new "B", none⟩,
      ⟨0, none, none, none, some 4, none, false, false, false,
        Player.new "S", Player.new "N", Player.new "B", none⟩] :
       List BallOutcome).foldl CurrentScore.score_ball CurrentScore.new).runs = 7 := by
  rw [C2_runs_invariant _ (by intro b hb; fin_cases hb <;> rfl)]
  decide

/-- C6: each `score_ball` call raises `wickets_lost` (and lowers
`wickets_left`) by exactly the number of dismissals whose kind passes the
policy, and a kind passes the policy iff it is exactly "retired out" or does
not contain the substring "retired" (so e.g. "retired hurt" changes
neither counter). -/
theorem C6_retired_policy (s : CurrentScore) (b : BallOutcome) :
    (s.score_ball b).wickets_lost = s.wickets_lost + (wicketFallCount b : Int) ∧
    (s.score_ball b).wickets_left = s.wickets_left - (wicketFallCount b : Int) ∧
    (∀ k : String, strContains k "retired" = true → k ≠ "retired out" →
      countsAsDismissal k = false) ∧
    (∀ k : String, k = "retired out" ∨ strContains k "retired" = false →
      countsAsDismissal k = true) := by
  refine ⟨score_ball_wickets_lost s b, score_ball_wickets_left s b,
    fun k hc hne => ?_, fun k h => ?_⟩
  · unfold countsAsDismissal
    rw [hc]
    simp only [Bool.not_true, Bool.or_false]
    exact beq_eq_false_iff_ne.mpr hne
  · unfold countsAsDismissal
    rcases h with h | h
    · simp [h]
    · simp [h]

/-- Witness for C6: a "retired hurt" dismissal is not counted, a
"retired out" dismissal is. -/
theorem C6_retired_policy_witness :
    (CurrentScore.new.score_ball
        ⟨0, some [⟨"P", "retired hurt"⟩], none, none, none, none, false, false,
         false, Player.new "S", Player.new "N", Player.new "B", none⟩).wickets_lost = 0 ∧
    (CurrentScore.new.score_ball
        ⟨0, some [⟨"P", "retired out"⟩], none, none, none, none, false, false,
         false, Player.new "S", Player.new "N", Player.new "B", none⟩).wickets_left = 9 ∧
    countsAsDismissal "retired hurt" = false ∧
    countsAsDismissal "retired out" = true := by
  refine ⟨?_, ?_, ?_, ?_⟩
  · rw [(C6_retired_policy CurrentScore.new _).1]; decide
  · rw [(C6_retired_policy CurrentScore.new _).2.1]; decide
  · exact (C6_retired_policy CurrentScore.new
      (BallOutcome.mk0 (Player.new "S") (Player.new "N") (Player.new "B"))).2.2.1
      "retired hurt" (by decide) (by decide)
  · exact (C6_retired_policy CurrentScore.new
      (BallOutcome.mk0 (Player.new "S") (Player.new "N") (Player.new "B"))).2.2.2
      "retired out" (Or.inl rfl)

theorem listModify_get? (f : Player → Player) (i j : Nat) (l : List Player) :
    (listModify f i l).get? j = if i = j then (l.get? j).map f else l.get? j := by
  induction l generalizing i j with
  | nil => cases i <;> simp [listModify]
  | cons p ps ih =>
    cases i with
    | zero => cases j with
      | zero => simp [listModify]
      | succ j => simp [listModify]
    | succ i => cases j with
      | zero => simp [listModify]
      | succ j => simpa [listModify] using ih i j

theorem updateStriker_balls_faced (b : BallOutcome) (p : Player) :
    (updateStriker b p).balls_faced =
      p.balls_faced + (if b.wide = none ∧ b.no_ball = none then 1 else 0) := by
  unfold updateStriker
  cases hw : b.wide <;> cases hnb : b.no_ball <;> simp [hw, hnb] <;>
    split_ifs <;> rfl

theorem updateBowler_fields (b : BallOutcome) (p : Player) :
    (updateBowler b p).runs_conceded = p.runs_conceded + b.runs ∧
    (updateBowler b p).balls_bowled =
      p.balls_bowled + (if b.wide = none ∧ b.no_ball = none then 1 else 0) ∧
    (updateBowler b p).wickets_taken =
      p.wickets_taken + ((b.wicket.getD []).length : Int) ∧
    (updateBowler b p).wides = p.wides + (if b.wide.isSome then 1 else 0) ∧
    (updateBowler b p).no_balls = p.no_balls + (if b.no_ball.isSome then 1 else 0) := by
  unfold updateBowler
  cases hwk : b.wicket <;> cases hw : b.wide <;> cases hnb : b.no_ball <;>
    simp [hwk, hw, hnb]

theorem processWicket_bowling (inn : Innings) (w : Wicket) (inn₂ : Innings)
    (h : inn.processWicket w = some inn₂) :
    inn₂.bowling_team = inn.bowling_team ∧ inn₂.score = inn.score := by
  unfold Innings.processWicket at h
  cases hf : inn.batting_team.players.findIdx?
      (fun p => strContains w.player_out p.name) with
  | none => rw [hf] at h; cases h
  | some i =>
    simp only [hf] at h
    split at h <;> (injection h with h; subst h; exact ⟨rfl, rfl⟩)

theorem processWicket_balls_faced (inn : Innings) (w : Wicket) (inn₂ : Innings)
    (h : inn.processWicket w = some inn₂) (j : Nat) :
    (inn₂.batting_team.players.get? j).map Player.balls_faced =
      (inn.batting_team.players.get? j).map Player.balls_faced := by
  unfold Innings.processWicket at h
  cases hf : inn.batting_team.players.findIdx?
      (fun p => strContains w.player_out p.name) with
  | none => rw [hf] at h; cases h
  | some i =>
    simp only [hf] at h
    split at h <;>
      (injection h with h; subst h
       show ((listModify _ i _).get? j).map _ = _
       rw [listModify_get?]
       split
       · rw [Option.map_map]; rfl
       · rfl)

theorem foldWicketsM_bowling (ws : List Wicket) : ∀ (inn inn₂ : Innings),
    ws.foldlM Innings.processWicket inn = some inn₂ →
    inn₂.bowling_team = inn.bowling_team ∧ inn₂.score = inn.score := by
  induction ws with
  | nil =>
    intro inn inn₂ h
    injection h with h
    rw [h]; exact ⟨rfl, rfl⟩
  | cons w ws ih =>
    intro inn inn₂ h
    rw [List.foldlM_cons] at h
    cases hp : inn.processWicket w with
    | none => rw [hp] at h; cases h
    | some mid =>
      rw [hp] at h
      have h' : ws.foldlM Innings.processWicket mid = some inn₂ := h
      obtain ⟨h1, h2⟩ := ih mid inn₂ h'
      obtain ⟨g1, g2⟩ := processWicket_bowling inn w mid hp
      exact ⟨h1.trans g1, h2.trans g2⟩

theorem foldWicketsM_balls_faced (ws : List Wicket) : ∀ (inn inn₂ : Innings),
    ws.foldlM Innings.processWicket inn = some inn₂ → ∀ j,
    (inn₂.batting_team.players.get? j).map Player.balls_faced =
      (inn.batting_team.players.get? j).map Player.balls_faced := by
  induction ws with
  | nil =>
    intro inn inn₂ h j
    injection h with h
    rw [h]
  | cons w ws ih =>
    intro inn inn₂ h j
    rw [List.foldlM_cons] at h
    cases hp : inn.processWicket w with
    | none => rw [hp] at h; cases h
    | some mid =>
      rw [hp] at h
      have h' : ws.foldlM Innings.processWicket mid = some inn₂ := h
      exact (ih mid inn₂ h' j).trans (processWicket_balls_faced inn w mid hp j)

theorem processWickets_bowling (inn : Innings) (b : BallOutcome) (inn₂ : Innings)
    (h : inn.processWickets b = some inn₂) :
    inn₂.bowling_team = inn.bowling_team ∧ inn₂.score = inn.score := by
  unfold Innings.processWickets at h
  cases hwk : b.wicket with
  | none => rw [hwk] at h; injection h with h; rw [h]; exact ⟨rfl, rfl⟩
  | some ws => rw [hwk] at h; exact foldWicketsM_bowling ws inn inn₂ h

theorem processWickets_balls_faced (inn : Innings) (b : BallOutcome) (inn₂ : Innings)
    (h : inn.processWickets b = some inn₂) (j : Nat) :
    (inn₂.batting_team.players.get? j).map Player.balls_faced =
      (inn.batting_team.players.get? j).map Player.balls_faced := by
  unfold Innings.processWickets at h
  cases hwk : b.wicket with
  | none => rw [hwk] at h; injection h with h; rw [h]
  | some ws => rw [hwk] at h; exact foldWicketsM_balls_faced ws inn inn₂ h j

/-- C7: a wide or no-ball delivery advances neither the ball-within-over
counter nor the striker's balls_faced; a delivery with neither flag advances
both by exactly one (the striker being the first batting-roster player whose
name matches the event's on-strike identity). -/
theorem C7_illegal_deliveries_consume_nothing :
    (∀ (s : CurrentScore) (b : BallOutcome), b.wide.isSome ∨ b.no_ball.isSome →
      (s.score_ball b).ball = s.ball) ∧
    (∀ (s : CurrentScore) (b : BallOutcome), b.wide = none → b.no_ball = none →
      (s.score_ball b).ball = s.ball + 1) ∧
    (∀ (inn : Innings) (b : BallOutcome) (inn' : Innings) (si : Nat),
      inn.score_ball b = some inn' →
      inn.batting_team.players.findIdx? (fun p => p.name == b.on_strike.name) = some si →
      (inn'.batting_team.players.get? si).map Player.balls_faced =
        (inn.batting_team.players.get? si).map
          (fun p => p.balls_faced + (if b.wide = none ∧ b.no_ball = none then 1 else 0))) := by
  refine ⟨fun s b h => ?_, fun s b hw hnb => ?_, fun inn b inn' si h hsi => ?_⟩
  · rw [score_ball_ball]
    have hne : ¬(b.wide = none ∧ b.no_ball = none) := by
      rcases h with h | h <;> intro hc
      · rw [hc.1] at h; cases h
      · rw [hc.2] at h; cases h
    rw [if_neg hne, add_zero]
  · rw [score_ball_ball, if_pos ⟨hw, hnb⟩]
  · unfold Innings.score_ball at h
    cases ha : inn.applyBall b with
    | none => rw [ha] at h; cases h
    | some inn₁ =>
      rw [ha] at h
      have h₁ : inn₁.processWickets b = some inn' := h
      rw [processWickets_balls_faced inn₁ b inn' h₁ si]
      unfold Innings.applyBall at ha
      rw [hsi] at ha
      cases hnsi : inn.batting_team.players.findIdx?
          (fun p => p.name == b.off_strike.name) with
      | none => rw [hnsi] at ha; exact Option.noConfusion ha
      | some nsi =>
        rw [hnsi] at ha
        injection ha with ha
        subst ha
        show ((listModify (updateStriker b) si _).get? si).map _ = _
        rw [listModify_get?, if_pos rfl, Option.map_map]
        cases inn.batting_team.players.get? si with
        | none => rfl
        | some p => simp [Function.comp, updateStriker_balls_faced]

/-- Witness for C7: a wide, a plain delivery, and the striker's balls_faced
on a concrete innings. -/
theorem C7_illegal_deliveries_consume_nothing_witness :
    (CurrentScore.new.score_ball
      { BallOutcome.mk0 (Player.new "S") (Player.new "N") (Player.new "B") with
        wide := some 1 }).ball = CurrentScore.new.ball ∧
    (CurrentScore.new.score_ball
      (BallOutcome.mk0 (Player.new "S") (Player.new "N") (Player.new "B"))).ball =
      CurrentScore.new.ball + 1 ∧
    ((((Innings.new ⟨[Player.new "S", Player.new "N"], "A"⟩
          ⟨[Player.new "B"], "Z"⟩).score_ball
        (BallOutcome.mk0 (Player.new "S") (Player.new "N") (Player.new "B"))).getD
          (Innings.new ⟨[], "A"⟩ ⟨[], "Z"⟩)).batting_team.players.get? 0).map
        Player.balls_faced =
      (((Innings.new ⟨[Player.new "S", Player.new "N"], "A"⟩
          ⟨[Player.new "B"], "Z"⟩).batting_team.players.get? 0).map
        (fun p => p.balls_faced +
          (if (BallOutcome.mk0 (Player.new "S") (Player.new "N")
                (Player.new "B")).wide = none ∧
              (BallOutcome.mk0 (Player.new "S") (Player.new "N")
                (Player.new "B")).no_ball = none then 1 else 0))) := by
  refine ⟨C7_illegal_deliveries_consume_nothing.1 _ _ (Or.inl (by decide)),
          C7_illegal_deliveries_consume_nothing.2.1 _ _ rfl rfl,
          C7_illegal_deliveries_consume_nothing.2.2 _ _ _ 0 (by decide) (by decide)⟩

/-- The odd-runs test of the source (`runs % 2 == 1`, truncated remainder)
agrees with mathematical oddness on non-negative run counts. -/
theorem rustOddRuns_iff (n : Int) (hn : 0 ≤ n) : rustOddRuns n = true ↔ Odd n := by
  unfold rustOddRuns
  rw [Int.tmod_eq_emod hn (by norm_num), beq_iff_eq, Int.odd_iff]

/-- C8: with resolvable striker and non-striker (at roster indices `si`,
`nsi`) and non-negative bat runs, the pre-wicket stage of
`Innings::score_ball` puts `on_strike` at the non-striker's index and
`off_strike` at the striker's index exactly when the bat runs are odd, and
keeps them at `si`/`nsi` when even — independent of any extras; the wicket
substitution runs afterwards on that state. -/
theorem C8_odd_runs_rotation (inn : Innings) (b : BallOutcome) (si nsi : Nat)
    (hsi : inn.batting_team.players.findIdx? (fun p => p.name == b.on_strike.name) = some si)
    (hnsi : inn.batting_team.players.findIdx? (fun p => p.name == b.off_strike.name) = some nsi)
    (hruns : 0 ≤ b.runs) :
    ∃ inn₁, inn.applyBall b = some inn₁ ∧
      inn.score_ball b = inn₁.processWickets b ∧
      (Odd b.runs → inn₁.on_strike = nsi ∧ inn₁.off_strike = si) ∧
      (¬ Odd b.runs → inn₁.on_strike = si ∧ inn₁.off_strike = nsi) := by
  have key : inn.applyBall b = some
      { inn with
        score := inn.score.score_ball b,
        batting_team := { inn.batting_team with
          players := listModify (updateStriker b) si inn.batting_team.players },
        bowling_team := { inn.bowling_team with
          players :=
            match inn.bowling_team.players.findIdx?
                (fun p => p.name == b.bowler.name) with
            | some bi => listModify (updateBowler b) bi inn.bowling_team.players
            | none => inn.bowling_team.players },
        on_strike := if rustOddRuns b.runs then nsi else si,
        off_strike := if rustOddRuns b.runs then si else nsi } := by
    unfold Innings.applyBall
    rw [hsi, hnsi]
  refine ⟨_, key, ?_, ?_, ?_⟩
  · unfold Innings.score_ball
    rw [key]
    rfl
  · intro hodd
    have ho : rustOddRuns b.runs = true := (rustOddRuns_iff b.runs hruns).mpr hodd
    exact ⟨if_pos ho, if_pos ho⟩
  · intro heven
    have ho : ¬ rustOddRuns b.runs = true := fun hc =>
      heven ((rustOddRuns_iff b.runs hruns).mp hc)
    exact ⟨if_neg ho, if_neg ho⟩

/-- Witness for C8: one run rotates the strike on a concrete innings; the
same innings with a dot ball does not. -/
theorem C8_odd_runs_rotation_witness :
    (∃ inn₁, (Innings.new ⟨[Player.new "S", Player.new "N"], "A"⟩
        ⟨[Player.new "B"], "Z"⟩).applyBall
        { BallOutcome.mk0 (Player.new "S") (Player.new "N") (Player.new "B") with
          runs := 1 } = some inn₁ ∧
      (Innings.new ⟨[Player.new "S", Player.new "N"], "A"⟩
        ⟨[Player.new "B"], "Z"⟩).score_ball
        { BallOutcome.mk0 (Player.new "S") (Player.new "N") (Player.new "B") with
          runs := 1 } = inn₁.processWickets
        { BallOutcome.mk0 (Player.new "S") (Player.new "N") (Player.new "B") with
          runs := 1 } ∧
      (Odd (1 : Int) → inn₁.on_strike = 1 ∧ inn₁.off_strike = 0) ∧
      (¬ Odd (1 : Int) → inn₁.on_strike = 0 ∧ inn₁.off_strike = 1)) := by
  exact C8_odd_runs_rotation _ _ 0 1 (by decide) (by decide) (by decide)

/-- C5 counterexample: on a delivery with one wide and no bat runs the
bowler's `runs_conceded` stays 0, although the full delivery run total is 1
(`runs_conceded += ball_outcome.runs` only adds the bat-runs component). -/
theorem C5_counterexample :
    ((((Innings.new ⟨[Player.new "S", Player.new "N"], "A"⟩
          ⟨[Player.new "B"], "Z"⟩).score_ball
        { BallOutcome.mk0 (Player.new "S") (Player.new "N") (Player.new "B") with
          wide := some 1 }).getD
        (Innings.new ⟨[], "A"⟩ ⟨[], "Z"⟩)).bowling_team.players.get? 0).map
      Player.runs_conceded = some 0 ∧
    deliveryRunsTotal
      { BallOutcome.mk0 (Player.new "S") (Player.new "N") (Player.new "B") with
        wide := some 1 } = 1 ∧
    ((Innings.new ⟨[Player.new "S", Player.new "N"], "A"⟩
        ⟨[Player.new "B"], "Z"⟩).score_ball
      { BallOutcome.mk0 (Player.new "S") (Player.new "N") (Player.new "B") with
        wide := some 1 }).isSome = true := by
  refine ⟨by decide, by decide, by decide⟩

/-- C5 (amended): for a delivery whose bowler is found in the bowling roster
(at index `bi`), `Innings::score_ball` adds only the bat-runs
(`outcome.runs`) to the bowler's `runs_conceded` — not the extras;
`balls_bowled` is incremented iff the delivery is neither wide nor no-ball;
`wickets_taken` grows by the number of dismissals; and the wides / no-balls
counters are incremented when the corresponding extra is present. -/
theorem C5_amended_bowler_stats (inn : Innings) (b : BallOutcome) (inn' : Innings)
    (bi : Nat) (h : inn.score_ball b = some inn')
    (hbi : inn.bowling_team.players.findIdx? (fun p => p.name == b.bowler.name) = some bi) :
    (inn'.bowling_team.players.get? bi).map Player.runs_conceded =
      (inn.bowling_team.players.get? bi).map (fun p => p.runs_conceded + b.runs) ∧
    (inn'.bowling_team.players.get? bi).map Player.balls_bowled =
      (inn.bowling_team.players.get? bi).map
        (fun p => p.balls_bowled + (if b.wide = none ∧ b.no_ball = none then 1 else 0)) ∧
    (inn'.bowling_team.players.get? bi).map Player.wickets_taken =
      (inn.bowling_team.players.get? bi).map
        (fun p => p.wickets_taken + ((b.wicket.getD []).length : Int)) ∧
    (inn'.bowling_team.players.get? bi).map Player.wides =
      (inn.bowling_team.players.get? bi).map
        (fun p => p.wides + (if b.wide.isSome then 1 else 0)) ∧
    (inn'.bowling_team.players.get? bi).map Player.no_balls =
      (inn.bowling_team.players.get? bi).map
        (fun p => p.no_balls + (if b.no_ball.isSome then 1 else 0)) := by
  unfold Innings.score_ball at h
  cases ha : inn.applyBall b with
  | none => rw [ha] at h; cases h
  | some inn₁ =>
    rw [ha] at h
    have h₁ : inn₁.processWickets b = some inn' := h
    have hbw := (processWickets_bowling inn₁ b inn' h₁).1
    rw [hbw]
    unfold Innings.applyBall at ha
    cases hsi : inn.batting_team.players.findIdx?
        (fun p => p.name == b.on_strike.name) with
    | none => rw [hsi] at ha; exact Option.noConfusion ha
    | some si =>
      rw [hsi] at ha
      cases hnsi : inn.batting_team.players.findIdx?
          (fun p => p.name == b.off_strike.name) with
      | none => rw [hnsi] at ha; exact Option.noConfusion ha
      | some nsi =>
        rw [hnsi] at ha
        injection ha with ha
        subst ha
        simp only [hbi]
        refine ⟨?_, ?_, ?_, ?_, ?_⟩ <;>
          (rw [listModify_get?, if_pos rfl, Option.map_map]
           cases hp : inn.bowling_team.players.get? bi with
           | none => rfl
           | some p =>
             obtain ⟨e1, e2, e3, e4, e5⟩ := updateBowler_fields b p
             simp [Function.comp, e1, e2, e3, e4, e5])

/-- Witness for C5 (amended) on a concrete wide delivery. -/
theorem C5_amended_bowler_stats_witness :
    ((((Innings.new ⟨[Player.new "S", Player.new "N"], "A"⟩
          ⟨[Player.new "B"], "Z"⟩).score_ball
        { BallOutcome.mk0 (Player.new "S") (Player.new "N") (Player.new "B") with
          runs := 2, wide := some 1 }).getD
        (Innings.new ⟨[], "A"⟩ ⟨[], "Z"⟩)).bowling_team.players.get? 0).map
      Player.runs_conceded =
      (((Innings.new ⟨[Player.new "S", Player.new "N"], "A"⟩
          ⟨[Player.new "B"], "Z"⟩).bowling_team.players.get? 0).map
        (fun p => p.runs_conceded +
          ({ BallOutcome.mk0 (Player.new "S") (Player.new "N") (Player.new "B") with
             runs := 2, wide := some 1 } : BallOutcome).runs)) := by
  have h : (Innings.new ⟨[Player.new "S", Player.new "N"], "A"⟩
      ⟨[Player.new "B"], "Z"⟩).score_ball
      { BallOutcome.mk0 (Player.new "S") (Player.new "N") (Player.new "B") with
        runs := 2, wide := some 1 } =
      some (((Innings.new ⟨[Player.new "S", Player.new "N"], "A"⟩
          ⟨[Player.new "B"], "Z"⟩).score_ball
        { BallOutcome.mk0 (Player.new "S") (Player.new "N") (Player.new "B") with
          runs := 2, wide := some 1 }).getD
        (Innings.new ⟨[], "A"⟩ ⟨[], "Z"⟩)) := by decide
  exact (C5_amended_bowler_stats _ _ _ 0 h (by decide)).1

/-- C3: with at least one innings recorded, `calculate_result` stores `Draw`
when fewer than two distinct sides batted, and also (regardless of the raw
run comparison branch) when the side batting in the last recorded innings
has a strictly smaller summed total than the other (bowling) side while that
innings still had wickets in hand. -/
theorem C3_draw_conditions (m : Match) (last : Innings)
    (hlast : m.innings.getLast? = some last) :
    (m.battingNames.eraseDups.length < 2 →
      (m.calculate_result).result = some .Draw) ∧
    (m.teamTotal last.batting_team.name < m.teamTotal last.bowling_team.name →
      0 < last.score.wickets_left →
      (m.calculate_result).result = some .Draw) := by
  constructor
  · intro h1
    unfold Match.calculate_result
    simp only [hlast]
    rw [if_pos (Or.inl h1)]
  · intro h1 h2
    unfold Match.calculate_result
    simp only [hlast]
    rw [if_pos (Or.inr ⟨h1, h2⟩)]

/-- Witness for C3: a single-innings match and a chasing-side-short match. -/
theorem C3_draw_conditions_witness :
    ((fixtureMatch [fixtureInnings (fixtureTeam "A") (fixtureTeam "B") 100 10]).calculate_result).result = some .Draw ∧
    ((fixtureMatch [fixtureInnings (fixtureTeam "A") (fixtureTeam "B") 300 10,
        fixtureInnings (fixtureTeam "B") (fixtureTeam "A") 200 5]).calculate_result).result = some .Draw := by
  constructor
  · exact (C3_draw_conditions
      (fixtureMatch [fixtureInnings (fixtureTeam "A") (fixtureTeam "B") 100 10])
      (fixtureInnings (fixtureTeam "A") (fixtureTeam "B") 100 10)
      (by decide)).1 (by decide)
  · exact (C3_draw_conditions
      (fixtureMatch [fixtureInnings (fixtureTeam "A") (fixtureTeam "B") 300 10,
        fixtureInnings (fixtureTeam "B") (fixtureTeam "A") 200 5])
      (fixtureInnings (fixtureTeam "B") (fixtureTeam "A") 200 5)
      (by decide)).2 (by decide) (by decide)

/-- C4: when exactly the two distinct sides `W` (winner, strictly greater
summed total) and `L` batted: `is_innings_victory` holds iff at least three
innings are recorded and the two sides' innings counts differ; an innings
victory's margin is runs (winner total minus loser total) regardless of who
batted last; otherwise the margin is the last innings' wickets-left when the
winner batted last, and runs when not.  (`wl` within `u8` range and the run
difference within `u32` range, matching the source's casts.) -/
theorem C4_innings_victory_and_margins (m : Match) (W L lastBat : String) (wl : Int)
    (hdistinct : m.battingNames.eraseDups = [W, L] ∨ m.battingNames.eraseDups = [L, W])
    (hwl0 : 0 ≤ wl) (hwl : wl < 256)
    (hlt : m.teamTotal L < m.teamTotal W)
    (hrange : m.teamTotal W - m.teamTotal L < 4294967296) :
    (m.is_innings_victory = true ↔
      3 ≤ m.innings.length ∧ m.teamInningsCount W ≠ m.teamInningsCount L) ∧
    (m.is_innings_victory = true →
      m.calculate_win_margin W L lastBat wl =
        .Runs (m.teamTotal W - m.teamTotal L)) ∧
    (m.is_innings_victory = false → lastBat = W →
      m.calculate_win_margin W L lastBat wl = .Wickets wl) ∧
    (m.is_innings_victory = false → lastBat ≠ W →
      m.calculate_win_margin W L lastBat wl =
        .Runs (m.teamTotal W - m.teamTotal L)) := by
  have hruns : m.calculate_win_margin W L lastBat wl = .Runs (i32AsU32 (m.teamTotal W - m.teamTotal L)) →
      m.calculate_win_margin W L lastBat wl = .Runs (m.teamTotal W - m.teamTotal L) := by
    intro h
    rw [h]
    unfold i32AsU32
    rw [Int.emod_eq_of_lt (by omega) hrange]
  refine ⟨?_, fun hiv => ?_, fun hiv hbat => ?_, fun hiv hbat => ?_⟩
  · unfold Match.is_innings_victory
    rcases hdistinct with h | h <;> rw [h] <;> split <;> rename_i hlen <;>
      simp only [List.map_cons, List.map_nil, List.length_cons, List.length_nil,
        List.getD_cons_zero, List.getD_cons_succ, beq_self_eq_true, Bool.true_and,
        Bool.and_eq_true, beq_iff_eq, bne_iff_ne, ne_eq, Bool.false_eq_true, false_iff]
    · rintro ⟨h3, -⟩; omega
    · constructor
      · intro hne
        exact ⟨by omega, hne⟩
      · rintro ⟨-, hne⟩
        exact hne
    · rintro ⟨h3, -⟩; omega
    · constructor
      · intro hne
        exact ⟨by omega, Ne.symm hne⟩
      · rintro ⟨-, hne⟩
        exact Ne.symm hne
  · apply hruns
    unfold Match.calculate_win_margin
    rw [hiv]
    simp
  · unfold Match.calculate_win_margin
    rw [hiv]
    simp only [Bool.false_eq_true, if_false]
    rw [if_pos (by exact beq_iff_eq.mpr hbat.symm)]
    unfold i32AsU8
    rw [Int.emod_eq_of_lt hwl0 hwl]
  · apply hruns
    unfold Match.calculate_win_margin
    rw [hiv]
    simp only [Bool.false_eq_true, if_false]
    rw [if_neg (by simp only [beq_iff_eq]; exact fun hc => hbat hc.symm)]

/-- Witness for C4: the innings-victory scenario (400 vs 150+200) and a
two-innings chase (margin in wickets). -/
theorem C4_innings_victory_and_margins_witness :
    (fixtureMatch [fixtureInnings (fixtureTeam "A") (fixtureTeam "B") 400 10,
      fixtureInnings (fixtureTeam "B") (fixtureTeam "A") 150 0,
      fixtureInnings (fixtureTeam "B") (fixtureTeam "A") 200 0]).is_innings_victory = true ∧
    (fixtureMatch [fixtureInnings (fixtureTeam "A") (fixtureTeam "B") 400 10,
      fixtureInnings (fixtureTeam "B") (fixtureTeam "A") 150 0,
      fixtureInnings (fixtureTeam "B") (fixtureTeam "A") 200 0]).calculate_win_margin
        "A" "B" "B" 0 = .Runs 50 ∧
    (fixtureMatch [fixtureInnings (fixtureTeam "A") (fixtureTeam "B") 150 0,
      fixtureInnings (fixtureTeam "B") (fixtureTeam "A") 151 4]).calculate_win_margin
        "B" "A" "B" 4 = .Wickets 4 := by
  have h1 := C4_innings_victory_and_margins
    (fixtureMatch [fixtureInnings (fixtureTeam "A") (fixtureTeam "B") 400 10,
      fixtureInnings (fixtureTeam "B") (fixtureTeam "A") 150 0,
      fixtureInnings (fixtureTeam "B") (fixtureTeam "A") 200 0])
    "A" "B" "B" 0 (Or.inl (by decide)) (by decide) (by decide) (by decide) (by decide)
  have h2 := C4_innings_victory_and_margins
    (fixtureMatch [fixtureInnings (fixtureTeam "A") (fixtureTeam "B") 150 0,
      fixtureInnings (fixtureTeam "B") (fixtureTeam "A") 151 4])
    "B" "A" "B" 4 (Or.inr (by decide)) (by decide) (by decide) (by decide) (by decide)
  have hiv1 : _ = true := h1.1.mpr ⟨by decide, by decide⟩
  refine ⟨hiv1, ?_, ?_⟩
  · rw [h1.2.1 hiv1]; decide
  · rw [h2.2.2.1 (by decide) rfl]

/-- C1 counterexample: a match holding a method-labelled result
(`Tie` by "DL", stored via `set_result_with_method`) on which
`calculate_result` replaces the stored result by the freshly computed
`Team1Won` with no method label. -/
theorem C1_counterexample :
    ((fixtureMatch [fixtureInnings (fixtureTeam "A") (fixtureTeam "B") 100 0,
        fixtureInnings (fixtureTeam "B") (fixtureTeam "A") 50 0]).set_result_with_method
        (.Tie none) (some "DL")).result = some (.Tie (some "DL")) ∧
    (((fixtureMatch [fixtureInnings (fixtureTeam "A") (fixtureTeam "B") 100 0,
        fixtureInnings (fixtureTeam "B") (fixtureTeam "A") 50 0]).set_result_with_method
        (.Tie none) (some "DL")).calculate_result).result =
      some (.Team1Won (.Runs 50) none) := by
  exact ⟨by decide, by decide⟩

theorem battingNames_set_result (m : Match) (r : Option MatchResult) :
    ({ m with result := r } : Match).battingNames = m.battingNames := rfl

theorem teamTotal_set_result (m : Match) (r : Option MatchResult) (n : String) :
    ({ m with result := r } : Match).teamTotal n = m.teamTotal n := rfl

theorem win_margin_set_result (m : Match) (r : Option MatchResult)
    (a b c : String) (wl : Int) :
    ({ m with result := r } : Match).calculate_win_margin a b c wl =
      m.calculate_win_margin a b c wl := by
  unfold Match.calculate_win_margin Match.is_innings_victory
  rfl

/-- C1 (amended): `calculate_result` leaves the match (hence any stored
method-labelled result) unchanged only when the innings list is empty; with
a non-empty innings list the stored result field has no influence on the
outcome — `calculate_result` recomputes and overwrites it. -/
theorem C1_amended_calculate_result_overwrites :
    (∀ m : Match, m.innings = [] → m.calculate_result = m) ∧
    (∀ (m : Match) (r₁ r₂ : Option MatchResult), m.innings ≠ [] →
      ({ m with result := r₁ } : Match).calculate_result.result =
        ({ m with result := r₂ } : Match).calculate_result.result) := by
  constructor
  · intro m hm
    unfold Match.calculate_result
    rw [hm]
    rfl
  · intro m r₁ r₂ hm
    unfold Match.calculate_result
    dsimp only
    cases hL : m.innings.getLast? with
    | none => exact absurd (List.getLast?_eq_none_iff.mp hL) hm
    | some last =>
      simp only [hL, battingNames_set_result, teamTotal_set_result,
        win_margin_set_result]

/-- Witness for C1 (amended): the empty-innings no-op at a concrete match
and result-independence at a concrete two-innings match. -/
theorem C1_amended_calculate_result_overwrites_witness :
    (fixtureMatch []).calculate_result = fixtureMatch [] ∧
    ({ fixtureMatch [fixtureInnings (fixtureTeam "A") (fixtureTeam "B") 100 0,
        fixtureInnings (fixtureTeam "B") (fixtureTeam "A") 50 0] with
        result := some (.Tie (some "DL")) } : Match).calculate_result.result =
      ({ fixtureMatch [fixtureInnings (fixtureTeam "A") (fixtureTeam "B") 100 0,
          fixtureInnings (fixtureTeam "B") (fixtureTeam "A") 50 0] with
          result := none } : Match).calculate_result.result := by
  exact ⟨C1_amended_calculate_result_overwrites.1 _ rfl,
         C1_amended_calculate_result_overwrites.2 _ _ _ (by decide)⟩

end Cricket
